import Mathlib

/-!
Shallow embedding of `components/compositing/webview_manager.rs`
(the multi-surface compositor session registry).

Modelling conventions:
* `WebViewId` and `RenderingGroupId` are `Nat` (opaque identifiers; the Rust
  `RenderingGroupId` is `u64`, a counter incremented by at most one per call,
  so it is modelled as `Nat`).
* Rust `HashMap`s are association lists with `lookupA` / `setA` (overwriting
  insert) / `insertNew` (`entry().or_insert`) / `eraseA` (`remove`).
* An operation that can `panic!` / `unwrap()` / `expect()` / `assert!` returns
  `Option`, with `none` standing for the panic; typed `Result` errors are
  `Except` values inside the `some`.
* External collaborators (the webrender library, GL, the compositor channel)
  are out of scope: `webrender::create_webrender_instance` is modelled by an
  `Option WebRenderInstance` argument (`none` = the library refused), and the
  `sender` / notifier fields are omitted since no bookkeeping reads them.
-/

abbrev WebViewId := Nat

abbrev RenderingGroupId := Nat

/-- The observable remnant of the Rust `WebRenderInstance` (rendering_context,
webrender renderer, gl handle, document id, api, sender, notifier): only the
document id is data the bookkeeping layer could compare; the rest are external
handles. -/
structure WebRenderInstance where
  webrender_document : Nat
  deriving DecidableEq

/-- `HashMap::get`: first binding of the key, if any. -/
def lookupA {β : Type} (k : Nat) : List (Nat × β) → Option β
  | [] => none
  | (k', v) :: rest => if k = k' then some v else lookupA k rest

/-- `HashMap::contains_key`. -/
def containsA {β : Type} (k : Nat) (l : List (Nat × β)) : Bool :=
  (lookupA k l).isSome

/-- `HashMap::insert` (overwrite an existing binding, else add one). -/
def setA {β : Type} (k : Nat) (v : β) : List (Nat × β) → List (Nat × β)
  | [] => [(k, v)]
  | (k', v') :: rest =>
    if k = k' then (k, v) :: rest else (k', v') :: setA k v rest

/-- `HashMap::entry(k).or_insert(v)`: keep the present binding, else add. -/
def insertNew {β : Type} (k : Nat) (v : β) (l : List (Nat × β)) : List (Nat × β) :=
  if containsA k l then l else l ++ [(k, v)]

/-- `HashMap::remove`. -/
def eraseA {β : Type} (k : Nat) : List (Nat × β) → List (Nat × β)
  | [] => []
  | (k', v') :: rest => if k = k' then rest else (k', v') :: eraseA k rest

/-- The state of `WebViewManager<WebView>`. -/
structure WebViewManager (W : Type) where
  webviews : List (WebViewId × W)
  rendering_contexts : List (RenderingGroupId × WebRenderInstance)
  webview_groups : List (WebViewId × RenderingGroupId)
  painting_order : List (RenderingGroupId × List WebViewId)
  last_used_id : Option RenderingGroupId
  deriving DecidableEq

/-- `WebViewManager::new` (the channel argument carries no bookkeeping state). -/
def wvmNew (W : Type) : WebViewManager W :=
  { webviews := []
    rendering_contexts := []
    webview_groups := []
    painting_order := []
    last_used_id := none }

/-- `group_painting_order_mut`: `webview_groups.get(&v).unwrap()` then
`painting_order.get_mut(group).unwrap()`; either failed lookup panics
(`none`). -/
def group_painting_order {W : Type} (s : WebViewManager W) (v : WebViewId) :
    Option (RenderingGroupId × List WebViewId) :=
  match lookupA v s.webview_groups with
  | none => none
  | some g =>
    match lookupA g s.painting_order with
    | none => none
    | some ord => some (g, ord)

/-- `WebViewManager::get` (named `get'` to avoid clashing with the ambient
monadic `get`). -/
def get' {W : Type} (s : WebViewManager W) (v : WebViewId) : Option W :=
  lookupA v s.webviews

/-- `WebViewManager::remove`: runs `group_painting_order_mut` (possible panic),
retains everything different from `v` in that order, then removes from
`webviews`, turning a missing entry into `Err(UnknownWebView)`. -/
def remove {W : Type} (s : WebViewManager W) (v : WebViewId) :
    Option (Except WebViewId W × WebViewManager W) :=
  match group_painting_order s v with
  | none => none
  | some (g, ord) =>
    let s1 : WebViewManager W :=
      { s with painting_order := setA g (ord.filter (fun b => decide (b ≠ v))) s.painting_order }
    match lookupA v s1.webviews with
    | none => some (Except.error v, s1)
    | some w => some (Except.ok w, { s1 with webviews := eraseA v s1.webviews })

/-- `WebViewManager::show` (named `show'` because `show` is reserved in Lean):
unknown view is `Err(UnknownWebView)`, then `group_painting_order_mut`
(possible panic), then append if absent. -/
def show' {W : Type} (s : WebViewManager W) (v : WebViewId) :
    Option (Except WebViewId Bool × WebViewManager W) :=
  if containsA v s.webviews = false then
    some (Except.error v, s)
  else
    match group_painting_order s v with
    | none => none
    | some (g, ord) =>
      if v ∉ ord then
        some (Except.ok true,
          { s with painting_order := setA g (ord ++ [v]) s.painting_order })
      else
        some (Except.ok false, s)

/-- `WebViewManager::hide`: unknown view is `Err(UnknownWebView)`, then
`group_painting_order_mut` (possible panic), then retain-all-but-`v` if
present. -/
def hide {W : Type} (s : WebViewManager W) (v : WebViewId) :
    Option (Except WebViewId Bool × WebViewManager W) :=
  if containsA v s.webviews = false then
    some (Except.error v, s)
  else
    match group_painting_order s v with
    | none => none
    | some (g, ord) =>
      if v ∈ ord then
        some (Except.ok true,
          { s with painting_order := setA g (ord.filter (fun b => decide (b ≠ v))) s.painting_order })
      else
        some (Except.ok false, s)

/-- `WebViewManager::hide_all`: `painting_order.get_mut(&g).unwrap()` (panic on
unknown group), then clear if non-empty. -/
def hide_all {W : Type} (s : WebViewManager W) (g : RenderingGroupId) :
    Option (Bool × WebViewManager W) :=
  match lookupA g s.painting_order with
  | none => none
  | some ord =>
    if ord.isEmpty = false then
      some (true, { s with painting_order := setA g [] s.painting_order })
    else
      some (false, s)

/-- `WebViewManager::raise_to_top`: unknown view is `Err(UnknownWebView)`,
`group_painting_order_mut` (possible panic); if `v` is not the last entry,
`self.hide(v)?` then `self.show(v)?` then `Ok(true)`. -/
def raise_to_top {W : Type} (s : WebViewManager W) (v : WebViewId) :
    Option (Except WebViewId Bool × WebViewManager W) :=
  if containsA v s.webviews = false then
    some (Except.error v, s)
  else
    match group_painting_order s v with
    | none => none
    | some (_, ord) =>
      if ord.getLast? ≠ some v then
        match hide s v with
        | none => none
        | some (Except.error e, s1) => some (Except.error e, s1)
        | some (Except.ok _, s1) =>
          match show' s1 v with
          | none => none
          | some (Except.error e, s2) => some (Except.error e, s2)
          | some (Except.ok _, s2) => some (Except.ok true, s2)
      else
        some (Except.ok false, s)

/-- `WebViewManager::painting_order` (the iterator):
`painting_order.get(&g).expect(..)` (panic on unknown group), then
`flat_map` of `get` over the order, skipping ids with no registry entry. -/
def painting_order_pairs {W : Type} (s : WebViewManager W) (g : RenderingGroupId) :
    Option (List (WebViewId × W)) :=
  match lookupA g s.painting_order with
  | none => none
  | some ord =>
    some (ord.filterMap (fun v => (lookupA v s.webviews).map (fun w => (v, w))))

/-- `WebViewManager::add_webview`: `entry(..).or_insert(..)` into `webviews`
and into `webview_groups`; total, no liveness check on `group_id`. -/
def add_webview {W : Type} (s : WebViewManager W) (group_id : RenderingGroupId)
    (v : WebViewId) (w : W) : WebViewManager W :=
  { s with
    webviews := insertNew v w s.webviews
    webview_groups := insertNew v group_id s.webview_groups }

/-- `last_used_id` as the counter value (`None` behaves as `0` through
`get_or_insert(0)`). -/
def lastUsedNat {W : Type} (s : WebViewManager W) : Nat :=
  s.last_used_id.getD 0

/-- `WebViewManager::add_webview_group`: increments `last_used_id`
(`get_or_insert(0)` then `+= 1`); `create_webrender_instance(..).expect(..)`
panics when the library refuses (`createResult = none`); the
`assert!(!rendering_contexts.contains_key(&new_group_id))` panics if the id is
taken; otherwise inserts the instance and an empty paint order. -/
def add_webview_group {W : Type} (s : WebViewManager W)
    (createResult : Option WebRenderInstance) :
    Option (RenderingGroupId × WebViewManager W) :=
  let new_group_id := lastUsedNat s + 1
  let s0 : WebViewManager W := { s with last_used_id := some new_group_id }
  match createResult with
  | none => none
  | some inst =>
    if containsA new_group_id s0.rendering_contexts then none
    else
      some (new_group_id,
        { s0 with
          rendering_contexts := setA new_group_id inst s0.rendering_contexts
          painting_order := setA new_group_id [] s0.painting_order })

/-- `WebViewManager::deinit`: its first statement is `panic!("DEINIT")`, so the
call always aborts (`none`); everything after it is dead code. -/
def deinit {W : Type} (_s : WebViewManager W) : Option (WebViewManager W) :=
  none

/-- The dead code after the `panic!("DEINIT")` in `deinit` (drains the
rendering contexts, clears every table and resets the counter); kept for the
record, unreachable in the program. -/
def deinit_dead_code {W : Type} (s : WebViewManager W) : WebViewManager W :=
  { s with
    rendering_contexts := []
    last_used_id := none
    painting_order := []
    webviews := []
    webview_groups := [] }

/-- One public operation of the manager, for reachability traces.  The
`addGroup` constructor carries the outcome of the external
`create_webrender_instance` call. -/
inductive Op (W : Type) where
  | addGroup (createResult : Option WebRenderInstance)
  | addWebview (g : RenderingGroupId) (v : WebViewId) (w : W)
  | removeOp (v : WebViewId)
  | showOp (v : WebViewId)
  | hideOp (v : WebViewId)
  | hideAllOp (g : RenderingGroupId)
  | raiseOp (v : WebViewId)
  | deinitOp
  deriving DecidableEq

/-- One step of the manager: `none` is a panic; a typed `Err` leaves the caller
running with the returned state; `addGroup` also reports the returned
`RenderingGroupId`. -/
def step {W : Type} (s : WebViewManager W) :
    Op W → Option (WebViewManager W × Option RenderingGroupId)
  | Op.addGroup res => (add_webview_group s res).map (fun p => (p.2, some p.1))
  | Op.addWebview g v w => some (add_webview s g v w, none)
  | Op.removeOp v => (remove s v).map (fun p => (p.2, none))
  | Op.showOp v => (show' s v).map (fun p => (p.2, none))
  | Op.hideOp v => (hide s v).map (fun p => (p.2, none))
  | Op.hideAllOp g => (hide_all s g).map (fun p => (p.2, none))
  | Op.raiseOp v => (raise_to_top s v).map (fun p => (p.2, none))
  | Op.deinitOp => (deinit s).map (fun s' => (s', none))

/-- Run a list of operations: final state (`none` when some step panicked,
ending the process) and the list of group ids returned by the `addGroup`
steps that completed before any panic, in call order. -/
def runTrace {W : Type} :
    WebViewManager W → List (Op W) → Option (WebViewManager W) × List RenderingGroupId
  | s, [] => (some s, [])
  | s, op :: rest =>
    match step s op with
    | none => (none, [])
    | some (s', idOpt) =>
      let r := runTrace s' rest
      (r.1, idOpt.toList ++ r.2)

/-- The spec's Group Membership Index invariant, first half: every `ViewId` in
`webview_groups` is also in `webviews`. -/
def GroupsSubsetRegistry {W : Type} (s : WebViewManager W) : Prop :=
  ∀ v g, lookupA v s.webview_groups = some g → containsA v s.webviews = true

/-- The spec's full Group Membership Index invariant: every `ViewId` in
`webview_groups` is in `webviews` and its group has a live rendering
session. -/
def MembershipInvariant {W : Type} (s : WebViewManager W) : Prop :=
  ∀ v g, lookupA v s.webview_groups = some g →
    containsA v s.webviews = true ∧ containsA g s.rendering_contexts = true

theorem lookupA_setA_self {β : Type} (k : Nat) (v : β) (l : List (Nat × β)) :
    lookupA k (setA k v l) = some v := by
  induction l with
  | nil => simp [setA, lookupA]
  | cons p rest ih =>
    obtain ⟨k', v'⟩ := p
    by_cases h : k = k' <;> simp [setA, lookupA, h, ih]

theorem lookupA_setA_ne {β : Type} {k k' : Nat} (h : k ≠ k') (v : β) (l : List (Nat × β)) :
    lookupA k (setA k' v l) = lookupA k l := by
  induction l with
  | nil => simp [setA, lookupA, h]
  | cons p rest ih =>
    obtain ⟨k'', v''⟩ := p
    by_cases h2 : k' = k''
    · subst h2; simp [setA, lookupA, h]
    · by_cases h3 : k = k'' <;> simp [setA, lookupA, h2, h3, ih]

theorem setA_setA {β : Type} (k : Nat) (v₁ v₂ : β) (l : List (Nat × β)) :
    setA k v₂ (setA k v₁ l) = setA k v₂ l := by
  induction l with
  | nil => simp [setA]
  | cons p rest ih =>
    obtain ⟨k', v'⟩ := p
    by_cases h : k = k' <;> simp [setA, h, ih]

theorem lookupA_append_of_none {β : Type} {k : Nat} {l₁ : List (Nat × β)}
    (h : lookupA k l₁ = none) (l₂ : List (Nat × β)) :
    lookupA k (l₁ ++ l₂) = lookupA k l₂ := by
  induction l₁ with
  | nil => simp
  | cons p rest ih =>
    obtain ⟨k', v'⟩ := p
    by_cases h2 : k = k'
    · simp [lookupA, h2] at h
    · simp [lookupA, h2] at h ⊢
      exact ih h

theorem lookupA_append_of_some {β : Type} {k : Nat} {l₁ : List (Nat × β)} {v : β}
    (h : lookupA k l₁ = some v) (l₂ : List (Nat × β)) :
    lookupA k (l₁ ++ l₂) = some v := by
  induction l₁ with
  | nil => simp [lookupA] at h
  | cons p rest ih =>
    obtain ⟨k', v'⟩ := p
    by_cases h2 : k = k' <;> simp [lookupA, h2] at h ⊢
    · exact h
    · exact ih h

theorem lookupA_insertNew_self {β : Type} (k : Nat) (v : β) (l : List (Nat × β)) :
    lookupA k (insertNew k v l) = some ((lookupA k l).getD v) := by
  unfold insertNew containsA
  cases hl : lookupA k l with
  | none =>
    simp [hl]
    rw [lookupA_append_of_none hl]
    simp [lookupA]
  | some w => simp [hl]

theorem lookupA_insertNew_ne {β : Type} {k k' : Nat} (h : k ≠ k') (v : β) (l : List (Nat × β)) :
    lookupA k (insertNew k' v l) = lookupA k l := by
  unfold insertNew containsA
  cases hl : lookupA k' l with
  | none =>
    simp [hl]
    cases hk : lookupA k l with
    | none => rw [lookupA_append_of_none hk]; simp [lookupA, h]
    | some w => exact lookupA_append_of_some hk _
  | some w => simp [hl]

theorem containsA_insertNew_self {β : Type} (k : Nat) (v : β) (l : List (Nat × β)) :
    containsA k (insertNew k v l) = true := by
  unfold containsA
  rw [lookupA_insertNew_self]
  simp

theorem containsA_insertNew_of {β : Type} {k k' : Nat} {l : List (Nat × β)}
    (h : containsA k l = true) (v : β) :
    containsA k (insertNew k' v l) = true := by
  by_cases hk : k = k'
  · subst hk; exact containsA_insertNew_self k v l
  · unfold containsA at h ⊢
    rw [lookupA_insertNew_ne hk]
    exact h

theorem show_shape {W : Type} {s : WebViewManager W} {v : WebViewId}
    {r : Except WebViewId Bool} {s' : WebViewManager W}
    (h : show' s v = some (r, s')) :
    s'.webviews = s.webviews ∧ s'.webview_groups = s.webview_groups ∧
    s'.rendering_contexts = s.rendering_contexts ∧ s'.last_used_id = s.last_used_id := by
  unfold show' group_painting_order at h
  repeat' split at h
  all_goals try exact Option.noConfusion h
  all_goals simp only [Option.some.injEq, Prod.mk.injEq] at h
  all_goals obtain ⟨-, rfl⟩ := h
  all_goals exact ⟨rfl, rfl, rfl, rfl⟩

theorem hide_shape {W : Type} {s : WebViewManager W} {v : WebViewId}
    {r : Except WebViewId Bool} {s' : WebViewManager W}
    (h : hide s v = some (r, s')) :
    s'.webviews = s.webviews ∧ s'.webview_groups = s.webview_groups ∧
    s'.rendering_contexts = s.rendering_contexts ∧ s'.last_used_id = s.last_used_id := by
  unfold hide group_painting_order at h
  repeat' split at h
  all_goals try exact Option.noConfusion h
  all_goals simp only [Option.some.injEq, Prod.mk.injEq] at h
  all_goals obtain ⟨-, rfl⟩ := h
  all_goals exact ⟨rfl, rfl, rfl, rfl⟩

theorem hide_all_shape {W : Type} {s : WebViewManager W} {g : RenderingGroupId}
    {r : Bool} {s' : WebViewManager W}
    (h : hide_all s g = some (r, s')) :
    s'.webviews = s.webviews ∧ s'.webview_groups = s.webview_groups ∧
    s'.rendering_contexts = s.rendering_contexts ∧ s'.last_used_id = s.last_used_id := by
  unfold hide_all at h
  repeat' split at h
  all_goals try exact Option.noConfusion h
  all_goals simp only [Option.some.injEq, Prod.mk.injEq] at h
  all_goals obtain ⟨-, rfl⟩ := h
  all_goals exact ⟨rfl, rfl, rfl, rfl⟩

theorem remove_shape {W : Type} {s : WebViewManager W} {v : WebViewId}
    {r : Except WebViewId W} {s' : WebViewManager W}
    (h : remove s v = some (r, s')) :
    s'.webview_groups = s.webview_groups ∧
    s'.rendering_contexts = s.rendering_contexts ∧ s'.last_used_id = s.last_used_id := by
  unfold remove group_painting_order at h
  split at h
  · exact Option.noConfusion h
  · cases hw : lookupA v s.webviews with
    | none =>
      simp only [hw, Option.some.injEq, Prod.mk.injEq] at h
      obtain ⟨-, rfl⟩ := h
      exact ⟨rfl, rfl, rfl⟩
    | some w =>
      simp only [hw, Option.some.injEq, Prod.mk.injEq] at h
      obtain ⟨-, rfl⟩ := h
      exact ⟨rfl, rfl, rfl⟩

theorem raise_shape {W : Type} {s : WebViewManager W} {v : WebViewId}
    {r : Except WebViewId Bool} {s' : WebViewManager W}
    (h : raise_to_top s v = some (r, s')) :
    s'.webviews = s.webviews ∧ s'.webview_groups = s.webview_groups ∧
    s'.rendering_contexts = s.rendering_contexts ∧ s'.last_used_id = s.last_used_id := by
  unfold raise_to_top at h
  repeat' split at h
  all_goals try exact Option.noConfusion h
  all_goals simp only [Option.some.injEq, Prod.mk.injEq] at h
  all_goals obtain ⟨-, rfl⟩ := h
  all_goals try exact ⟨rfl, rfl, rfl, rfl⟩
  all_goals
    (first
      | (rename_i x1 a s1 heq1 x2 b s2 heq2
         exact ⟨(show_shape heq2).1.trans (hide_shape heq1).1,
           (show_shape heq2).2.1.trans (hide_shape heq1).2.1,
           (show_shape heq2).2.2.1.trans (hide_shape heq1).2.2.1,
           (show_shape heq2).2.2.2.trans (hide_shape heq1).2.2.2⟩)
      | (rename_i x2 e s2 heq2
         exact hide_shape heq2))

theorem add_webview_group_some {W : Type} {s : WebViewManager W}
    {res : Option WebRenderInstance} {n : RenderingGroupId} {s' : WebViewManager W}
    (h : add_webview_group s res = some (n, s')) :
    n = lastUsedNat s + 1 ∧ s'.last_used_id = some (lastUsedNat s + 1) ∧
    s'.webviews = s.webviews ∧ s'.webview_groups = s.webview_groups := by
  unfold add_webview_group at h
  cases res with
  | none => exact Option.noConfusion h
  | some inst =>
    by_cases hc : containsA (lastUsedNat s + 1) s.rendering_contexts
    · simp [hc] at h
    · simp only [hc, Bool.false_eq_true, if_false, if_neg, Option.some.injEq,
        Prod.mk.injEq, reduceIte] at h
      obtain ⟨rfl, rfl⟩ := h
      exact ⟨rfl, rfl, rfl, rfl⟩

theorem step_last_used {W : Type} {s : WebViewManager W} {o : Op W}
    {s' : WebViewManager W} {i : Option RenderingGroupId}
    (h : step s o = some (s', i)) :
    (i = none ∧ lastUsedNat s' = lastUsedNat s) ∨
    (i = some (lastUsedNat s + 1) ∧ lastUsedNat s' = lastUsedNat s + 1) := by
  cases o with
  | addGroup res =>
    right
    simp only [step] at h
    cases hg : add_webview_group s res with
    | none => rw [hg] at h; exact Option.noConfusion h
    | some p =>
      obtain ⟨n, st⟩ := p
      rw [hg] at h
      simp only [Option.map_some', Option.some.injEq, Prod.mk.injEq] at h
      obtain ⟨rfl, rfl⟩ := h
      obtain ⟨rfl, hlu, -, -⟩ := add_webview_group_some hg
      exact ⟨rfl, by simp [lastUsedNat, hlu]⟩
  | addWebview g v w =>
    left
    simp only [step, Option.some.injEq, Prod.mk.injEq] at h
    obtain ⟨rfl, rfl⟩ := h
    exact ⟨rfl, rfl⟩
  | removeOp v =>
    left
    simp only [step] at h
    cases hg : remove s v with
    | none => rw [hg] at h; exact Option.noConfusion h
    | some p =>
      obtain ⟨r0, s0⟩ := p
      rw [hg] at h
      simp only [Option.map_some', Option.some.injEq, Prod.mk.injEq] at h
      obtain ⟨rfl, rfl⟩ := h
      exact ⟨rfl, by simp [lastUsedNat, (remove_shape hg).2.2]⟩
  | showOp v =>
    left
    simp only [step] at h
    cases hg : show' s v with
    | none => rw [hg] at h; exact Option.noConfusion h
    | some p =>
      obtain ⟨r0, s0⟩ := p
      rw [hg] at h
      simp only [Option.map_some', Option.some.injEq, Prod.mk.injEq] at h
      obtain ⟨rfl, rfl⟩ := h
      exact ⟨rfl, by simp [lastUsedNat, (show_shape hg).2.2.2]⟩
  | hideOp v =>
    left
    simp only [step] at h
    cases hg : hide s v with
    | none => rw [hg] at h; exact Option.noConfusion h
    | some p =>
      obtain ⟨r0, s0⟩ := p
      rw [hg] at h
      simp only [Option.map_some', Option.some.injEq, Prod.mk.injEq] at h
      obtain ⟨rfl, rfl⟩ := h
      exact ⟨rfl, by simp [lastUsedNat, (hide_shape hg).2.2.2]⟩
  | hideAllOp g =>
    left
    simp only [step] at h
    cases hg : hide_all s g with
    | none => rw [hg] at h; exact Option.noConfusion h
    | some p =>
      obtain ⟨r0, s0⟩ := p
      rw [hg] at h
      simp only [Option.map_some', Option.some.injEq, Prod.mk.injEq] at h
      obtain ⟨rfl, rfl⟩ := h
      exact ⟨rfl, by simp [lastUsedNat, (hide_all_shape hg).2.2.2]⟩
  | raiseOp v =>
    left
    simp only [step] at h
    cases hg : raise_to_top s v with
    | none => rw [hg] at h; exact Option.noConfusion h
    | some p =>
      obtain ⟨r0, s0⟩ := p
      rw [hg] at h
      simp only [Option.map_some', Option.some.injEq, Prod.mk.injEq] at h
      obtain ⟨rfl, rfl⟩ := h
      exact ⟨rfl, by simp [lastUsedNat, (raise_shape hg).2.2.2]⟩
  | deinitOp =>
    simp only [step, deinit, Option.map_none'] at h
    exact Option.noConfusion h

theorem runTrace_ids {W : Type} (s : WebViewManager W) (ops : List (Op W)) :
    List.Pairwise (· < ·) (runTrace s ops).2 ∧
    (∀ i ∈ (runTrace s ops).2, lastUsedNat s < i) ∧
    ((runTrace s ops).2.head?).getD (lastUsedNat s + 1) = lastUsedNat s + 1 := by
  induction ops generalizing s with
  | nil => simp [runTrace]
  | cons op rest ih =>
    cases hstep : step s op with
    | none => simp [runTrace, hstep]
    | some p =>
      obtain ⟨s', idOpt⟩ := p
      have hids : (runTrace s (op :: rest)).2 = idOpt.toList ++ (runTrace s' rest).2 := by
        simp [runTrace, hstep]
      have h1 := (ih s').1
      have h2 := (ih s').2.1
      have h3 := (ih s').2.2
      rcases step_last_used hstep with ⟨rfl, hlu⟩ | ⟨rfl, hlu⟩
      · rw [hids]
        simp only [Option.toList, List.nil_append]
        rw [hlu] at h2 h3
        exact ⟨h1, h2, h3⟩
      · rw [hids]
        simp only [Option.toList, List.singleton_append]
        rw [hlu] at h2
        refine ⟨List.pairwise_cons.2 ⟨fun b hb => h2 b hb, h1⟩, ?_, rfl⟩
        intro i hi
        rcases List.mem_cons.1 hi with rfl | hi'
        · exact Nat.lt_succ_self _
        · exact Nat.lt_trans (Nat.lt_succ_self _) (h2 i hi')

/-- C6: SessionIds are monotonically allocated: along any trace of public
operations from a fresh manager, the sequence of group ids returned by
`add_webview_group` is strictly increasing (each later id is greater than all
earlier ones), contains no repetition, and its first element, when any call
completed, is `1`. -/
theorem c6_monotonic_allocation (ops : List (Op Unit)) :
    List.Pairwise (· < ·) (runTrace (wvmNew Unit) ops).2 ∧
    (runTrace (wvmNew Unit) ops).2.Nodup ∧
    ((runTrace (wvmNew Unit) ops).2.head?).getD 1 = 1 := by
  have h := runTrace_ids (wvmNew Unit) ops
  exact ⟨h.1, h.1.imp (fun hlt => Nat.ne_of_lt hlt), h.2.2⟩

theorem add_webview_webviews {W : Type} (s : WebViewManager W)
    (g : RenderingGroupId) (v : WebViewId) (w : W) :
    (add_webview s g v w).webviews = insertNew v w s.webviews := rfl

theorem add_webview_groups {W : Type} (s : WebViewManager W)
    (g : RenderingGroupId) (v : WebViewId) (w : W) :
    (add_webview s g v w).webview_groups = insertNew v g s.webview_groups := rfl

/-- C1 (amended): every public operation other than `remove` preserves the
registry half of the Group Membership Index invariant (every `ViewId` in
`webview_groups` is also present in `webviews`).  `remove` breaks it because it
deletes the view from the registry but leaves its group-membership entry, and
the live-session half fails as well because `add_webview` records arbitrary
group ids without checking for a live session (see the counterexample). -/
theorem c1_invariant_preserved {W : Type} (s : WebViewManager W) (o : Op W)
    (s' : WebViewManager W) (i : Option RenderingGroupId)
    (hP : GroupsSubsetRegistry s) (hno : ∀ v, o ≠ Op.removeOp v)
    (h : step s o = some (s', i)) :
    GroupsSubsetRegistry s' := by
  cases o with
  | addGroup res =>
    simp only [step] at h
    cases hg : add_webview_group s res with
    | none => rw [hg] at h; exact Option.noConfusion h
    | some p =>
      obtain ⟨n, st⟩ := p
      rw [hg] at h
      simp only [Option.map_some', Option.some.injEq, Prod.mk.injEq] at h
      obtain ⟨rfl, -⟩ := h
      obtain ⟨-, -, hw, hgr⟩ := add_webview_group_some hg
      intro v g hv
      rw [hgr] at hv
      rw [hw]
      exact hP v g hv
  | addWebview g0 v0 w0 =>
    simp only [step, Option.some.injEq, Prod.mk.injEq] at h
    obtain ⟨rfl, -⟩ := h
    intro v g hv
    rw [add_webview_groups] at hv
    rw [add_webview_webviews]
    by_cases hvv : v = v0
    · subst hvv
      exact containsA_insertNew_self v w0 s.webviews
    · rw [lookupA_insertNew_ne hvv] at hv
      exact containsA_insertNew_of (hP v g hv) w0
  | removeOp v => exact absurd rfl (hno v)
  | showOp v =>
    simp only [step] at h
    cases hg : show' s v with
    | none => rw [hg] at h; exact Option.noConfusion h
    | some p =>
      obtain ⟨r0, s0⟩ := p
      rw [hg] at h
      simp only [Option.map_some', Option.some.injEq, Prod.mk.injEq] at h
      obtain ⟨rfl, -⟩ := h
      obtain ⟨hw, hg2, -, -⟩ := show_shape hg
      intro v' g' hv
      rw [hg2] at hv
      rw [hw]
      exact hP v' g' hv
  | hideOp v =>
    simp only [step] at h
    cases hg : hide s v with
    | none => rw [hg] at h; exact Option.noConfusion h
    | some p =>
      obtain ⟨r0, s0⟩ := p
      rw [hg] at h
      simp only [Option.map_some', Option.some.injEq, Prod.mk.injEq] at h
      obtain ⟨rfl, -⟩ := h
      obtain ⟨hw, hg2, -, -⟩ := hide_shape hg
      intro v' g' hv
      rw [hg2] at hv
      rw [hw]
      exact hP v' g' hv
  | hideAllOp g0 =>
    simp only [step] at h
    cases hg : hide_all s g0 with
    | none => rw [hg] at h; exact Option.noConfusion h
    | some p =>
      obtain ⟨r0, s0⟩ := p
      rw [hg] at h
      simp only [Option.map_some', Option.some.injEq, Prod.mk.injEq] at h
      obtain ⟨rfl, -⟩ := h
      obtain ⟨hw, hg2, -, -⟩ := hide_all_shape hg
      intro v' g' hv
      rw [hg2] at hv
      rw [hw]
      exact hP v' g' hv
  | raiseOp v =>
    simp only [step] at h
    cases hg : raise_to_top s v with
    | none => rw [hg] at h; exact Option.noConfusion h
    | some p =>
      obtain ⟨r0, s0⟩ := p
      rw [hg] at h
      simp only [Option.map_some', Option.some.injEq, Prod.mk.injEq] at h
      obtain ⟨rfl, -⟩ := h
      obtain ⟨hw, hg2, -, -⟩ := raise_shape hg
      intro v' g' hv
      rw [hg2] at hv
      rw [hw]
      exact hP v' g' hv
  | deinitOp =>
    simp only [step, deinit, Option.map_none'] at h
    exact Option.noConfusion h

/-- The state a fresh manager reaches through the public call
`add_webview 5 1 ()` (group `5` was never created). -/
def c1state1 : WebViewManager Unit :=
  ((runTrace (wvmNew Unit) [Op.addWebview 5 1 ()]).1).getD (wvmNew Unit)

/-- The state a fresh manager reaches through the public calls
`add_webview_group` (succeeding), `add_webview 1 1 ()`, `remove 1`. -/
def c1state2 : WebViewManager Unit :=
  ((runTrace (wvmNew Unit)
    [Op.addGroup (some ⟨0⟩), Op.addWebview 1 1 (), Op.removeOp 1]).1).getD (wvmNew Unit)

/-- C1 (counterexample): the invariant is not preserved by the public
operations.  After `add_webview 5 1 ()` from a fresh manager, ViewId `1` is in
the Group Membership Index with SessionId `5`, but `5` has no live
`RenderingSession`; and after create-group / `add_webview 1 1 ()` /
`remove 1`, ViewId `1` is still in the Group Membership Index although it is
no longer in the Surface Registry. -/
theorem c1_counterexample :
    lookupA 1 c1state1.webview_groups = some 5 ∧
    containsA 5 c1state1.rendering_contexts = false ∧
    ¬ MembershipInvariant c1state1 ∧
    lookupA 1 c1state2.webview_groups = some 1 ∧
    containsA 1 c1state2.webviews = false ∧
    ¬ GroupsSubsetRegistry c1state2 := by
  refine ⟨by decide, by decide, ?_, by decide, by decide, ?_⟩
  · intro hI
    exact absurd (hI 1 5 (by decide)).2 (by decide)
  · intro hI
    exact absurd (hI 1 1 (by decide)) (by decide)

/-- The state used by the C1 witness: a fresh manager after
`add_webview 3 7 ()`. -/
def c1wstate : WebViewManager Unit :=
  add_webview (wvmNew Unit) 3 7 ()

/-- Witness instantiating the amended C1 theorem on a concrete step. -/
theorem c1_witness : GroupsSubsetRegistry c1wstate :=
  c1_invariant_preserved (wvmNew Unit) (Op.addWebview 3 7 ()) c1wstate none
    (fun _ _ hv => Option.noConfusion hv)
    (fun _ hv => Op.noConfusion hv)
    rfl

/-- The state `show` produces when it appends `v` to the order `ord` of group
`g`. -/
def showState {W : Type} (s : WebViewManager W) (g : RenderingGroupId)
    (ord : List WebViewId) (v : WebViewId) : WebViewManager W :=
  { s with painting_order := setA g (ord ++ [v]) s.painting_order }

/-- The state `hide` produces when it removes `v` from the order `ord` of
group `g`. -/
def hideState {W : Type} (s : WebViewManager W) (g : RenderingGroupId)
    (ord : List WebViewId) (v : WebViewId) : WebViewManager W :=
  { s with painting_order := setA g (ord.filter (fun b => decide (b ≠ v))) s.painting_order }

theorem show_eq {W : Type} {s : WebViewManager W} {v g : Nat} {ord : List WebViewId}
    (hv : containsA v s.webviews = true) (hg : lookupA v s.webview_groups = some g)
    (ho : lookupA g s.painting_order = some ord) :
    show' s v = if v ∉ ord then some (Except.ok true, showState s g ord v)
      else some (Except.ok false, s) := by
  unfold show' group_painting_order showState
  rw [hv, hg]
  simp [ho]

theorem hide_eq {W : Type} {s : WebViewManager W} {v g : Nat} {ord : List WebViewId}
    (hv : containsA v s.webviews = true) (hg : lookupA v s.webview_groups = some g)
    (ho : lookupA g s.painting_order = some ord) :
    hide s v = if v ∈ ord then some (Except.ok true, hideState s g ord v)
      else some (Except.ok false, s) := by
  unfold hide group_painting_order hideState
  rw [hv, hg]
  simp [ho]

/-- C7: for a `ViewId` absent from the Surface Registry, `show` and `hide`
fail with `UnknownWebView` and leave the state unchanged; for a registered
view whose recorded group has a paint order, `show` appends the view to the
end and reports changed when it was absent and is a no-op reporting unchanged
when present, `hide` symmetrically removes it; hence `show` twice in a row
yields `(true, false)` and `hide` twice yields `(true, false)`. -/
theorem c7_show_hide {W : Type} (s : WebViewManager W) (v : WebViewId) :
    (containsA v s.webviews = false →
      show' s v = some (Except.error v, s) ∧ hide s v = some (Except.error v, s)) ∧
    (∀ g ord, containsA v s.webviews = true →
      lookupA v s.webview_groups = some g →
      lookupA g s.painting_order = some ord →
      (v ∉ ord →
        show' s v = some (Except.ok true, showState s g ord v) ∧
        show' (showState s g ord v) v = some (Except.ok false, showState s g ord v) ∧
        hide s v = some (Except.ok false, s)) ∧
      (v ∈ ord →
        show' s v = some (Except.ok false, s) ∧
        hide s v = some (Except.ok true, hideState s g ord v) ∧
        hide (hideState s g ord v) v = some (Except.ok false, hideState s g ord v))) := by
  constructor
  · intro hv
    constructor
    · unfold show'; rw [hv]; simp
    · unfold hide; rw [hv]; simp
  · intro g ord hv hg ho
    constructor
    · intro hmem
      refine ⟨?_, ?_, ?_⟩
      · rw [show_eq hv hg ho]; simp [hmem]
      · have hv2 : containsA v (showState s g ord v).webviews = true := hv
        have hg2 : lookupA v (showState s g ord v).webview_groups = some g := hg
        have ho2 : lookupA g (showState s g ord v).painting_order = some (ord ++ [v]) :=
          lookupA_setA_self g (ord ++ [v]) s.painting_order
        rw [show_eq hv2 hg2 ho2]
        simp
      · rw [hide_eq hv hg ho]; simp [hmem]
    · intro hmem
      refine ⟨?_, ?_, ?_⟩
      · rw [show_eq hv hg ho]; simp [hmem]
      · rw [hide_eq hv hg ho]; simp [hmem]
      · have hv2 : containsA v (hideState s g ord v).webviews = true := hv
        have hg2 : lookupA v (hideState s g ord v).webview_groups = some g := hg
        have ho2 : lookupA g (hideState s g ord v).painting_order =
            some (ord.filter (fun b => decide (b ≠ v))) :=
          lookupA_setA_self g _ s.painting_order
        rw [hide_eq hv2 hg2 ho2]
        simp [List.mem_filter]

/-- Concrete state for the C7 witness: one live group `1` with an empty paint
order and one registered view `1` in it. -/
def c7s : WebViewManager Unit :=
  { webviews := [(1, ())], rendering_contexts := [(1, ⟨0⟩)],
    webview_groups := [(1, 1)], painting_order := [(1, [])], last_used_id := some 1 }

/-- Witness for C7 at a concrete state: showing view 1 twice yields changed
then unchanged, and hiding the absent view reports unchanged. -/
theorem c7_witness :
    show' c7s 1 = some (Except.ok true, showState c7s 1 [] 1) ∧
    show' (showState c7s 1 [] 1) 1 = some (Except.ok false, showState c7s 1 [] 1) ∧
    hide c7s 1 = some (Except.ok false, c7s) :=
  ((c7_show_hide c7s 1).2 1 [] rfl rfl rfl).1 (by decide)

/-- The state `raise_to_top` produces when it moves `v` to the end of the
order `ord` of group `g` (remove if present, then append). -/
def raiseState {W : Type} (s : WebViewManager W) (g : RenderingGroupId)
    (ord : List WebViewId) (v : WebViewId) : WebViewManager W :=
  { s with painting_order := setA g (ord.filter (fun b => decide (b ≠ v)) ++ [v]) s.painting_order }

/-- C8: for an unregistered view, `raise_to_top` fails with `UnknownWebView`;
for a registered view that is already the last (topmost) entry of its group's
order it returns unchanged and leaves the state intact; otherwise it removes
the view from the order if present, appends it so that it becomes the last
entry, and returns changed. -/
theorem c8_raise_to_top {W : Type} (s : WebViewManager W) (v : WebViewId) :
    (containsA v s.webviews = false → raise_to_top s v = some (Except.error v, s)) ∧
    (∀ g ord, containsA v s.webviews = true →
      lookupA v s.webview_groups = some g →
      lookupA g s.painting_order = some ord →
      (ord.getLast? = some v → raise_to_top s v = some (Except.ok false, s)) ∧
      (ord.getLast? ≠ some v →
        raise_to_top s v = some (Except.ok true, raiseState s g ord v) ∧
        lookupA g (raiseState s g ord v).painting_order =
          some (ord.filter (fun b => decide (b ≠ v)) ++ [v]) ∧
        (ord.filter (fun b => decide (b ≠ v)) ++ [v]).getLast? = some v)) := by
  constructor
  · intro hv
    unfold raise_to_top
    rw [hv]
    simp
  · intro g ord hv hg ho
    constructor
    · intro hlast
      unfold raise_to_top group_painting_order
      rw [hv, hg]
      simp [ho, hlast]
    · intro hlast
      have hlast2 : (ord.getLast? = some v) = False := by
        simp [hlast]
      by_cases hm : v ∈ ord
      · have h1 : hide s v = some (Except.ok true, hideState s g ord v) := by
          rw [hide_eq hv hg ho]; simp [hm]
        have ho2 : lookupA g (hideState s g ord v).painting_order =
            some (ord.filter (fun b => decide (b ≠ v))) :=
          lookupA_setA_self g _ s.painting_order
        have h2 : show' (hideState s g ord v) v =
            some (Except.ok true,
              showState (hideState s g ord v) g (ord.filter (fun b => decide (b ≠ v))) v) := by
          rw [show_eq (s := hideState s g ord v) hv hg ho2]
          simp [List.mem_filter]
        have hstate : showState (hideState s g ord v) g
            (List.filter (fun b => !decide (b = v)) ord) v = raiseState s g ord v := by
          simp [showState, hideState, raiseState, setA_setA]
        have hmain : raise_to_top s v = some (Except.ok true, raiseState s g ord v) := by
          unfold raise_to_top group_painting_order
          rw [hv, hg]
          simp [ho, hlast2, h1, h2, hstate]
        refine ⟨hmain, lookupA_setA_self g _ s.painting_order, ?_⟩
        rw [List.getLast?_append_cons]
        rfl
      · have h1 : hide s v = some (Except.ok false, s) := by
          rw [hide_eq hv hg ho]; simp [hm]
        have h2 : show' s v = some (Except.ok true, showState s g ord v) := by
          rw [show_eq hv hg ho]; simp [hm]
        have hfe : List.filter (fun b => !decide (b = v)) ord = ord := by
          rw [List.filter_eq_self]
          intro a ha
          simp
          intro hav
          exact hm (hav ▸ ha)
        have hstate : showState s g ord v = raiseState s g ord v := by
          simp [showState, raiseState, hfe]
        have hmain : raise_to_top s v = some (Except.ok true, raiseState s g ord v) := by
          unfold raise_to_top group_painting_order
          rw [hv, hg]
          simp [ho, hlast2, h1, h2, hstate]
        refine ⟨hmain, lookupA_setA_self g _ s.painting_order, ?_⟩
        rw [List.getLast?_append_cons]
        rfl

/-- Concrete state for the C8 witness: group `1` paints `[2, 1]` and both
views are registered. -/
def c8s : WebViewManager Unit :=
  { webviews := [(1, ()), (2, ())], rendering_contexts := [(1, ⟨0⟩)],
    webview_groups := [(1, 1), (2, 1)], painting_order := [(1, [2, 1])],
    last_used_id := some 1 }

/-- Witness for C8 at a concrete state: raising the non-topmost view 2 moves
it to the end and reports changed. -/
theorem c8_witness :
    raise_to_top c8s 2 = some (Except.ok true, raiseState c8s 1 [2, 1] 2) ∧
    lookupA 1 (raiseState c8s 1 [2, 1] 2).painting_order =
      some ([2, 1].filter (fun b => decide (b ≠ 2)) ++ [2]) ∧
    (([2, 1].filter (fun b => decide (b ≠ 2))) ++ [2]).getLast? = some 2 :=
  ((c8_raise_to_top c8s 2).2 1 [2, 1] rfl rfl rfl).2 (by decide)

/-- The list of pairs the `painting_order` iterator yields for an order `ord`:
each id paired with its registry entry, ids without an entry skipped. -/
def orderPairs {W : Type} (s : WebViewManager W) (ord : List WebViewId) :
    List (WebViewId × W) :=
  ord.filterMap (fun v => (lookupA v s.webviews).map (fun w => (v, w)))

theorem orderPairs_map_fst {W : Type} (s : WebViewManager W) (ord : List WebViewId) :
    (orderPairs s ord).map Prod.fst = ord.filter (fun v => containsA v s.webviews) := by
  induction ord with
  | nil => simp [orderPairs]
  | cons a rest ih =>
    unfold orderPairs containsA at ih ⊢
    cases hw : lookupA a s.webviews with
    | none => simp [List.filterMap_cons, hw, List.filter_cons, ih]
    | some w => simp [List.filterMap_cons, hw, List.filter_cons, ih]

theorem orderPairs_mem {W : Type} (s : WebViewManager W) (ord : List WebViewId) :
    ∀ p ∈ orderPairs s ord, lookupA p.1 s.webviews = some p.2 := by
  intro p hp
  unfold orderPairs at hp
  rw [List.mem_filterMap] at hp
  obtain ⟨v, hv, hmap⟩ := hp
  cases hw : lookupA v s.webviews with
  | none => rw [hw] at hmap; exact Option.noConfusion hmap
  | some w =>
    rw [hw] at hmap
    simp only [Option.map_some', Option.some.injEq] at hmap
    subst hmap
    exact hw

/-- C9: for a session with a paint-order entry, iterating the painting order
does not panic even when the order holds ids whose registry entry vanished:
stale ids are silently skipped and the iteration yields exactly the pairs of
the remaining ids with their views, in sequence order; and a successful `hide`
leaves the registry - hence `get` - untouched. -/
theorem c9_order_iteration {W : Type} (s : WebViewManager W) (g : RenderingGroupId)
    (ord : List WebViewId) (h : lookupA g s.painting_order = some ord) :
    painting_order_pairs s g = some (orderPairs s ord) ∧
    (orderPairs s ord).map Prod.fst = ord.filter (fun v => containsA v s.webviews) ∧
    (∀ p ∈ orderPairs s ord, get' s p.1 = some p.2) ∧
    (∀ v r s', hide s v = some (Except.ok r, s') → ∀ u, get' s' u = get' s u) := by
  refine ⟨?_, orderPairs_map_fst s ord, ?_, ?_⟩
  · unfold painting_order_pairs orderPairs
    rw [h]
  · intro p hp
    exact orderPairs_mem s ord p hp
  · intro v r s' hh u
    unfold get'
    rw [(hide_shape hh).1]

/-- Concrete state for the C9 witness: the order of group 1 is `[1, 2, 3]` but
only view `2` is still registered. -/
def c9s : WebViewManager Unit :=
  { webviews := [(2, ())], rendering_contexts := [(1, ⟨0⟩)],
    webview_groups := [(2, 1)], painting_order := [(1, [1, 2, 3])],
    last_used_id := some 1 }

/-- Witness for C9: iterating group 1 of `c9s` skips the stale ids 1 and 3 and
yields exactly the pair for view 2. -/
theorem c9_witness :
    painting_order_pairs c9s 1 = some (orderPairs c9s [1, 2, 3]) ∧
    orderPairs c9s [1, 2, 3] = [(2, ())] :=
  ⟨(c9_order_iteration c9s 1 [1, 2, 3] rfl).1, rfl⟩

/-- C10: `add_webview` is total and checks nothing about the group: for every
`group_id`, including ids for which no session was ever created, the call
succeeds, inserts the view into the registry if absent and records
`webview_id`-to-`group_id` in the membership index (first writer wins for
both), and touches no other table; a later `show`, `hide` or `raise_to_top` on
a registered view whose recorded group has no paint-order entry panics
instead of returning a typed error. -/
theorem c10_add_webview_unchecked {W : Type} (s : WebViewManager W)
    (group_id : RenderingGroupId) (v : WebViewId) (w : W) :
    lookupA v (add_webview s group_id v w).webviews =
      some ((lookupA v s.webviews).getD w) ∧
    lookupA v (add_webview s group_id v w).webview_groups =
      some ((lookupA v s.webview_groups).getD group_id) ∧
    (add_webview s group_id v w).rendering_contexts = s.rendering_contexts ∧
    (add_webview s group_id v w).painting_order = s.painting_order ∧
    (∀ u, u ≠ v →
      lookupA u (add_webview s group_id v w).webviews = lookupA u s.webviews ∧
      lookupA u (add_webview s group_id v w).webview_groups = lookupA u s.webview_groups) ∧
    (∀ g', containsA v s.webviews = true → lookupA v s.webview_groups = some g' →
      lookupA g' s.painting_order = none →
      show' s v = none ∧ hide s v = none ∧ raise_to_top s v = none) := by
  refine ⟨lookupA_insertNew_self v w s.webviews,
    lookupA_insertNew_self v group_id s.webview_groups, rfl, rfl, ?_, ?_⟩
  · intro u hu
    exact ⟨lookupA_insertNew_ne hu w s.webviews,
      lookupA_insertNew_ne hu group_id s.webview_groups⟩
  · intro g' hv hg hnone
    have hgp : group_painting_order s v = none := by
      unfold group_painting_order
      simp [hg, hnone]
    refine ⟨?_, ?_, ?_⟩
    · unfold show'; rw [hv]; simp [hgp]
    · unfold hide; rw [hv]; simp [hgp]
    · unfold raise_to_top; rw [hv]; simp [hgp]

/-- Concrete state for the C10 witness: view `1` added to the never-created
group `9`. -/
def c10s : WebViewManager Unit :=
  add_webview (wvmNew Unit) 9 1 ()

/-- Witness for C10: the membership of view 1 records the dead group 9, and
the three order operations on it panic. -/
theorem c10_witness :
    lookupA 1 c10s.webview_groups = some ((lookupA 1 (wvmNew Unit).webview_groups).getD 9) ∧
    show' c10s 1 = none ∧ hide c10s 1 = none ∧ raise_to_top c10s 1 = none :=
  ⟨(c10_add_webview_unchecked (wvmNew Unit) 9 1 ()).2.1,
   ((c10_add_webview_unchecked c10s 9 1 ()).2.2.2.2.2 9 rfl rfl rfl).1,
   ((c10_add_webview_unchecked c10s 9 1 ()).2.2.2.2.2 9 rfl rfl rfl).2.1,
   ((c10_add_webview_unchecked c10s 9 1 ()).2.2.2.2.2 9 rfl rfl rfl).2.2⟩

/-- C2 (code evaluated at the failing input): on a fresh manager, `remove` of
an unregistered `ViewId` panics - the `unwrap` inside
`group_painting_order_mut` - instead of returning `Err(UnknownWebView)` as the
module's own unit test expects. -/
theorem c2_remove_panics_on_unknown : remove (wvmNew Unit) 0 = none := rfl

/-- C3 (code evaluated at the failing input): `deinit` aborts on every state:
its first statement is the `panic!("DEINIT")`, so the drain/detach/release
teardown the spec describes never runs. -/
theorem c3_deinit_aborts {W : Type} (s : WebViewManager W) : deinit s = none := rfl

/-- C4 (counterexample): `hide_all` on a session id with no paint-order entry
panics - the `unwrap` on `painting_order.get_mut` - instead of failing with a
recoverable unknown-session error. -/
theorem c4_counterexample : hide_all (wvmNew Unit) 1 = none := rfl

/-- C4 (amended): `hide_all(g)` panics when `g` has no paint-order entry; when
`g` has one, it clears the entire order, returns true iff the order was
non-empty beforehand, and touches no other table. -/
theorem c4_hide_all_behavior {W : Type} (s : WebViewManager W) (g : RenderingGroupId)
    (ord : List WebViewId) (h : lookupA g s.painting_order = some ord) :
    hide_all s g = some (decide (ord ≠ []),
      if ord.isEmpty then s
      else { s with painting_order := setA g [] s.painting_order }) ∧
    (∀ b s', hide_all s g = some (b, s') →
      lookupA g s'.painting_order = some [] ∧ s'.webviews = s.webviews ∧
      s'.webview_groups = s.webview_groups ∧
      s'.rendering_contexts = s.rendering_contexts) := by
  constructor
  · unfold hide_all
    rw [h]
    cases ord with
    | nil => simp
    | cons a rest => simp
  · intro b s' h2
    unfold hide_all at h2
    rw [h] at h2
    cases ord with
    | nil =>
      simp only [List.isEmpty_nil, Option.some.injEq, Prod.mk.injEq] at h2
      obtain ⟨-, rfl⟩ := h2
      exact ⟨h, rfl, rfl, rfl⟩
    | cons a rest =>
      simp only [List.isEmpty_cons, Option.some.injEq, Prod.mk.injEq] at h2
      obtain ⟨-, rfl⟩ := h2
      exact ⟨lookupA_setA_self g [] s.painting_order, rfl, rfl, rfl⟩

/-- Concrete state for the C4 witness: group 1 paints `[7]`. -/
def c4s : WebViewManager Unit :=
  { webviews := [], rendering_contexts := [(1, ⟨0⟩)], webview_groups := [],
    painting_order := [(1, [7])], last_used_id := some 1 }

/-- Witness for C4 at a concrete state: clearing the non-empty order of group
1 returns true. -/
theorem c4_witness :
    hide_all c4s 1 = some (decide (([7] : List WebViewId) ≠ []),
      if ([7] : List WebViewId).isEmpty then c4s
      else { c4s with painting_order := setA 1 [] c4s.painting_order }) :=
  (c4_hide_all_behavior c4s 1 [7] rfl).1

/-- C5 (counterexample): when the external library refuses to create a
pipeline instance, `add_webview_group` panics - the `expect` call - instead of
propagating a typed `RenderingBackendFailure`; its return type has no error
channel at all. -/
theorem c5_counterexample : add_webview_group (wvmNew Unit) none = none := rfl

/-- C5 (amended): session creation panics when the external library refuses to
create a pipeline instance, rather than returning a typed error; on success -
whenever the freshly incremented id is unused, which the code asserts - the
new id, the pipeline instance and an empty paint order are registered together
with the advanced counter, and the registry and membership index are
untouched. -/
theorem c5_creation {W : Type} (s : WebViewManager W) (inst : WebRenderInstance)
    (h : containsA (lastUsedNat s + 1) s.rendering_contexts = false) :
    add_webview_group s none = none ∧
    (∀ n s', add_webview_group s (some inst) = some (n, s') →
      n = lastUsedNat s + 1 ∧
      lookupA n s'.rendering_contexts = some inst ∧
      lookupA n s'.painting_order = some [] ∧
      s'.last_used_id = some n ∧
      s'.webviews = s.webviews ∧ s'.webview_groups = s.webview_groups) ∧
    (add_webview_group s (some inst)).isSome = true := by
  have heq : add_webview_group s (some inst) =
      some (lastUsedNat s + 1,
        { s with last_used_id := some (lastUsedNat s + 1),
                 rendering_contexts := setA (lastUsedNat s + 1) inst s.rendering_contexts,
                 painting_order := setA (lastUsedNat s + 1) [] s.painting_order }) := by
    unfold add_webview_group
    simp [h]
  refine ⟨rfl, ?_, ?_⟩
  · intro n s' hs
    rw [heq] at hs
    simp only [Option.some.injEq, Prod.mk.injEq] at hs
    obtain ⟨rfl, rfl⟩ := hs
    exact ⟨rfl, lookupA_setA_self _ inst s.rendering_contexts,
      lookupA_setA_self _ [] s.painting_order, rfl, rfl, rfl⟩
  · rw [heq]
    rfl

/-- Witness for C5: from a fresh manager, a refusing library means a panic and
an accepting one means a registered session. -/
theorem c5_witness :
    add_webview_group (wvmNew Unit) none = none ∧
    (add_webview_group (wvmNew Unit) (some ⟨0⟩)).isSome = true :=
  ⟨(c5_creation (wvmNew Unit) ⟨0⟩ rfl).1, (c5_creation (wvmNew Unit) ⟨0⟩ rfl).2.2⟩
